import Mathlib

/-!
Verification of the `gorate` limiter package (`src/limiter/limiter.go`).

The package is embedded shallowly:

* `Options`, `New`, `Limiter` and the read-only accessors are pure
  translations of the corresponding Go declarations.  Go's `uint32` fields
  become `Nat` (wrap-around of the atomic counters is made explicit with
  `% U32`); `time.Duration` (an `int64`) becomes `Int`; a Go `error` value
  becomes `GoError`; a function that can panic returns `Option`.
* `Run`'s worker pool is embedded as a small-step interleaving semantics:
  each of the `concurrency` goroutines is a little automaton (`WPhase`)
  whose atomic transitions (`step`) mirror the statements of the request
  loop, and a run is a fold of scheduler-chosen events (`runTrace`).  The
  admission gate (`golang.org/x/time/rate`) and the callback are external
  collaborators, so their outcomes arrive as data on the events; the nil-ness
  of the callback (`hasCallback`) decides which callback transition exists.
-/

namespace Gorate

/-- Modulus of Go's `uint32`; `atomic.AddUint32` wraps at this bound. -/
def U32 : Nat := 2 ^ 32

/-- A Go `error` value as observed by the worker loop: the two sentinel
context errors, or any other error carrying its message. -/
inductive GoError where
  | deadlineExceeded
  | canceled
  | other (msg : String)
deriving DecidableEq

/-- `err.Error()` for the modelled error values (the sentinel texts are the
ones of Go's `context` package). -/
def GoError.message : GoError → String
  | .deadlineExceeded => "context deadline exceeded"
  | .canceled => "context canceled"
  | .other m => m

/-- `strings.Contains(s, sub)` on the underlying character lists. -/
def strContains (s sub : String) : Bool :=
  decide (List.IsInfix sub.toList s.toList)

/-- The classification on line 134 of the source:
`err == context.DeadlineExceeded || strings.Contains(err.Error(), "context deadline")`. -/
def classifyIsDeadline (e : GoError) : Bool :=
  e == .deadlineExceeded || strContains e.message "context deadline"

/-- The options record passed to `New`.  `hasCallback` records whether the
`Callback` field is non-nil (the callback itself is an external collaborator
whose results are supplied by the environment during a run). -/
structure Options where
  concurrency : Nat
  limit : Nat
  qps : Nat
  duration : Int
  hasCallback : Bool
  signalHandler : Bool
deriving DecidableEq

/-- The `Limiter` struct as initialised by `New`: the option fields are
copied and every other field keeps its Go zero value — in particular
`counters` is the nil slice, modelled as `[]`. -/
structure Limiter where
  concurrency : Nat
  limit : Nat
  qps : Nat
  duration : Int
  hasCallback : Bool
  signalHandler : Bool
  counters : List Nat
  start : Int
  since : Int
  done : Bool
deriving DecidableEq

/-- `New` (lines 48-67): build the limiter from the options, then validate
`limit`/`concurrency`/`duration`; on a validation failure the error is
returned and no limiter. -/
def New (o : Options) : Except String Limiter :=
  if 0 < o.limit ∧ o.limit < o.concurrency then
    .error "limit value must be greater than concurrency value"
  else if o.limit = 0 ∧ o.duration = 0 then
    .error "set either limit or duration value"
  else
    .ok { concurrency := o.concurrency, limit := o.limit, qps := o.qps,
          duration := o.duration, hasCallback := o.hasCallback,
          signalHandler := o.signalHandler,
          counters := [], start := 0, since := 0, done := false }

/-- `NumOfQueries` (lines 195-197): `int(atomic.LoadUint32(&limiter.counters[0]))`.
Indexing an out-of-range (in particular nil) slice panics in Go; the panic is
modelled by `none`. -/
def NumOfQueries (counters : List Nat) : Option Int :=
  (counters.get? 0).map fun c => (c : Int)

/-- `NumOfQueriesByGroupID` (lines 200-205): guarded by
`id > 0 && id < len(limiter.counters)`, otherwise `0`. -/
def NumOfQueriesByGroupID (counters : List Nat) (id : Int) : Int :=
  if 0 < id ∧ id < (counters.length : Int) then (counters.getD id.toNat 0 : Int)
  else 0

/-- `Since` (lines 187-192): the frozen `since` value once `done`, else
`time.Since(limiter.start)` for the current instant `now`. -/
def Since (done : Bool) (since : Int) (start : Int) (now : Int) : Int :=
  if done then since else now - start

/-- Program counter of one worker goroutine inside the request loop of
`Run` (lines 130-166); each phase sits just before one atomic action. -/
inductive WPhase where
  | atGate
  | atLimitCheck
  | atIncOwn
  | atIncTotal
  | atCallback
  | exited
deriving DecidableEq

/-- Outcome of one `limiter.lim.Wait(limiter.limContext)` call, chosen by the
environment (the gate is an external collaborator). -/
inductive GateOutcome where
  | ok
  | fail (e : GoError)
deriving DecidableEq

/-- One atomic action of a worker; callback results travel on the event
because the callback is external. -/
inductive Action where
  | gateReturn (r : GateOutcome)
  | checkLimit
  | incOwn
  | incTotal
  | invokeCallback (r : Option GoError)
  | skipCallback
deriving DecidableEq

/-- A scheduler choice: worker `gid` (1-based group id) performs `act`. -/
structure Event where
  gid : Nat
  act : Action
deriving DecidableEq

/-- The shared mutable state of a run: the per-worker program counters, the
counters slice (index 0 the aggregate, index i worker i), and the
termination-state fields of the `Limiter` struct. -/
structure RunState where
  workers : List WPhase
  counters : List Nat
  lastError : Option GoError
  isDeadline : Bool
  isCanceled : Bool
  isQueryLimit : Bool
  isRateError : Bool
  isCallbackError : Bool
deriving DecidableEq

/-- Replace the phase of worker `gid`. -/
def setPhase (s : RunState) (gid : Nat) (p : WPhase) : RunState :=
  { s with workers := s.workers.set (gid - 1) p }

/-- `atomic.AddUint32(&counters[idx], 1)`: one wrapping increment. -/
def incAt (counters : List Nat) (idx : Nat) : List Nat :=
  counters.set idx ((counters.getD idx 0 + 1) % U32)

/-- One atomic transition of the request loop (lines 130-166).  `none` means
the event is not enabled in this state (the scheduler cannot pick it). -/
def step (o : Options) (s : RunState) (ev : Event) : Option RunState :=
  if ev.gid = 0 then none else
  match s.workers.get? (ev.gid - 1), ev.act with
  | some .atGate, .gateReturn .ok =>
    some (setPhase s ev.gid .atLimitCheck)
  | some .atGate, .gateReturn (.fail e) =>
    if classifyIsDeadline e then
      some { (setPhase s ev.gid .exited) with isDeadline := true }
    else if e == .canceled then
      some { (setPhase s ev.gid .exited) with isCanceled := true }
    else
      some { (setPhase s ev.gid .exited) with isRateError := true, lastError := some e }
  | some .atLimitCheck, .checkLimit =>
    if 0 < o.limit ∧ o.limit ≤ s.counters.getD 0 0 then
      some { (setPhase s ev.gid .exited) with isQueryLimit := true }
    else
      some (setPhase s ev.gid .atIncOwn)
  | some .atIncOwn, .incOwn =>
    some { (setPhase s ev.gid .atIncTotal) with counters := incAt s.counters ev.gid }
  | some .atIncTotal, .incTotal =>
    some { (setPhase s ev.gid .atCallback) with counters := incAt s.counters 0 }
  | some .atCallback, .invokeCallback r =>
    if o.hasCallback then
      match r with
      | none => some (setPhase s ev.gid .atGate)
      | some e =>
        some { (setPhase s ev.gid .exited) with isCallbackError := true, lastError := some e }
    else none
  | some .atCallback, .skipCallback =>
    if o.hasCallback then none else some (setPhase s ev.gid .atGate)
  | _, _ => none

/-- The state right after lines 125-126 of `Run`: every worker at the top of
its loop, `counters := make([]uint32, concurrency+1)`, all flags clear. -/
def initState (o : Options) : RunState :=
  { workers := List.replicate o.concurrency .atGate
    counters := List.replicate (o.concurrency + 1) 0
    lastError := none
    isDeadline := false
    isCanceled := false
    isQueryLimit := false
    isRateError := false
    isCallbackError := false }

/-- Run a whole schedule of events; `none` if some event was not enabled. -/
def runTrace (o : Options) : RunState → List Event → Option RunState
  | s, [] => some s
  | s, ev :: evs =>
    match step o s ev with
    | some s2 => runTrace o s2 evs
    | none => none

/-- Schedule constraint: every gate wait in the schedule is admitted (no
deadline, cancellation or rate failure is delivered). -/
def gatesOk (ev : Event) : Bool :=
  match ev.act with
  | .gateReturn r => r == .ok
  | _ => true

/-- Schedule constraint: every callback invocation in the schedule reports
the fixed failure `e0` (a callback that always fails with `e0`). -/
def cbAlwaysFails (e0 : GoError) (ev : Event) : Bool :=
  match ev.act with
  | .invokeCallback r => r == some e0
  | _ => true

/-- Both schedule constraints together. -/
def gatesOkCbFails (e0 : GoError) (ev : Event) : Bool :=
  gatesOk ev && cbAlwaysFails e0 ev

/-- The error, if any, that an enabled `step` on this state/event writes into
`limiter.lastError`: a gate failure that is classified neither as deadline
nor as cancellation (line 140), or a callback failure (line 161). -/
def stepRecordsError (o : Options) (s : RunState) (ev : Event) : Option GoError :=
  if ev.gid = 0 then none else
  match s.workers.get? (ev.gid - 1), ev.act with
  | some .atGate, .gateReturn (.fail e) =>
    if classifyIsDeadline e then none
    else if e == .canceled then none
    else some e
  | some .atCallback, .invokeCallback (some e) =>
    if o.hasCallback then some e else none
  | _, _ => none

/-- All errors recorded into `lastError` along a schedule, in order. -/
def recordedErrors (o : Options) : RunState → List Event → List GoError
  | _, [] => []
  | s, ev :: evs =>
    match step o s ev with
    | some s2 => (stepRecordsError o s ev).toList ++ recordedErrors o s2 evs
    | none => []

/-- `limiter.wg.Wait()` has returned: every worker has left its loop. -/
def allDone (s : RunState) : Bool :=
  s.workers.all (· == WPhase.exited)

/-- A worker that has passed the query-limit check but not yet performed the
aggregate increment of line 154. -/
def isPending (p : WPhase) : Bool :=
  p == .atIncOwn || p == .atIncTotal

/-- A worker between the two increments of lines 153 and 154. -/
def isBetween (p : WPhase) : Bool :=
  p == .atIncTotal

/-- A worker that has performed the aggregate increment of line 154 in its
current or final iteration (it sits at the callback, or exited after it). -/
def isPassed (p : WPhase) : Bool :=
  p == .atCallback || p == .exited

/-- A worker that has left the request loop. -/
def isExited (p : WPhase) : Bool :=
  p == .exited

/-- Workers that have passed the query-limit check but not yet performed the
aggregate increment. -/
def pendingCount (s : RunState) : Nat :=
  s.workers.countP isPending

/-- Workers between the two increments of lines 153 and 154. -/
def betweenCount (s : RunState) : Nat :=
  s.workers.countP isBetween

/-- Workers at or beyond the callback of their current iteration. -/
def passedCount (s : RunState) : Nat :=
  s.workers.countP isPassed

/-- Workers that have left the request loop. -/
def exitedCount (s : RunState) : Nat :=
  s.workers.countP isExited


/-- Structural well-formedness maintained throughout a run: worker list of
length `concurrency`, counters slice of length `concurrency + 1`, every
stored counter a `uint32` value. -/
def WF (o : Options) (s : RunState) : Prop :=
  s.workers.length = o.concurrency ∧ s.counters.length = o.concurrency + 1 ∧
    ∀ c ∈ s.counters, c < U32

/-- Whether `New` returned a limiter rather than a validation error. -/
def newOk (o : Options) : Bool :=
  match New o with
  | .ok _ => true
  | .error _ => false

/-- Concrete inputs used to witness the claims on concrete runs. -/
def oC1w : Options := ⟨1, 1, 0, 0, true, false⟩

def evsC1w : List Event :=
  [⟨1, .gateReturn .ok⟩, ⟨1, .checkLimit⟩, ⟨1, .incOwn⟩, ⟨1, .incTotal⟩,
   ⟨1, .invokeCallback (some (GoError.other "cb failed"))⟩]

def sC1w : RunState :=
  { workers := [.exited], counters := [1, 1],
    lastError := some (GoError.other "cb failed"),
    isDeadline := false, isCanceled := false, isQueryLimit := false,
    isRateError := false, isCallbackError := true }

def oC2x : Options := ⟨1, 5, 0, 0, true, false⟩

def evsC2x : List Event :=
  [⟨1, .gateReturn .ok⟩, ⟨1, .checkLimit⟩, ⟨1, .incOwn⟩]

def sC2x : RunState :=
  { workers := [.atIncTotal], counters := [0, 1], lastError := none,
    isDeadline := false, isCanceled := false, isQueryLimit := false,
    isRateError := false, isCallbackError := false }

def oC2w : Options := ⟨1, 2, 0, 0, true, false⟩

def evsC2w : List Event :=
  [⟨1, .gateReturn .ok⟩, ⟨1, .checkLimit⟩, ⟨1, .incOwn⟩, ⟨1, .incTotal⟩,
   ⟨1, .invokeCallback (some (GoError.other "cb failed"))⟩]

def sC2w : RunState :=
  { workers := [.exited], counters := [1, 1],
    lastError := some (GoError.other "cb failed"),
    isDeadline := false, isCanceled := false, isQueryLimit := false,
    isRateError := false, isCallbackError := true }

def oC3e : Options := ⟨2, 1, 0, 0, false, false⟩

def oC3a : Options := ⟨3, 3, 0, 0, false, false⟩

def oC4w : Options := ⟨1, 0, 0, 5, true, false⟩

def evsC4w : List Event := [⟨1, .gateReturn (.fail (.other "gate broke"))⟩]

def sC4w : RunState :=
  { workers := [.exited], counters := [0, 0],
    lastError := some (GoError.other "gate broke"),
    isDeadline := false, isCanceled := false, isQueryLimit := false,
    isRateError := true, isCallbackError := false }

def oC5x : Options := ⟨1, 0, 0, 1000, true, false⟩

def evsC5x : List Event := [⟨1, .gateReturn (.fail .deadlineExceeded)⟩]

def sC5x : RunState :=
  { workers := [.exited], counters := [0, 0], lastError := none,
    isDeadline := true, isCanceled := false, isQueryLimit := false,
    isRateError := false, isCallbackError := false }

def oC5w : Options := ⟨1, 0, 0, 5, true, false⟩

def eC5w : GoError := GoError.other "cb failed"

def evsC5w : List Event :=
  [⟨1, .gateReturn .ok⟩, ⟨1, .checkLimit⟩, ⟨1, .incOwn⟩, ⟨1, .incTotal⟩,
   ⟨1, .invokeCallback (some eC5w)⟩]

def sC5w : RunState :=
  { workers := [.exited], counters := [1, 1], lastError := some eC5w,
    isDeadline := false, isCanceled := false, isQueryLimit := false,
    isRateError := false, isCallbackError := true }

def oC6w : Options := ⟨1, 1, 0, 0, true, false⟩

def evsC6w : List Event :=
  [⟨1, .gateReturn .ok⟩, ⟨1, .checkLimit⟩, ⟨1, .incOwn⟩, ⟨1, .incTotal⟩,
   ⟨1, .invokeCallback (some (GoError.other "cb failed"))⟩]

def sC6w : RunState :=
  { workers := [.exited], counters := [1, 1],
    lastError := some (GoError.other "cb failed"),
    isDeadline := false, isCanceled := false, isQueryLimit := false,
    isRateError := false, isCallbackError := true }

def oC8 : Options := ⟨2, 5, 0, 0, true, false⟩

def lC8 : Limiter :=
  { concurrency := 2, limit := 5, qps := 0, duration := 0, hasCallback := true,
    signalHandler := false, counters := [], start := 0, since := 0, done := false }

def oC9w : Options := ⟨0, 3, 0, 0, true, false⟩

def oC10w : Options := ⟨1, 0, 0, 5, false, false⟩

def evsC10w : List Event :=
  [⟨1, .gateReturn .ok⟩, ⟨1, .checkLimit⟩, ⟨1, .incOwn⟩, ⟨1, .incTotal⟩,
   ⟨1, .skipCallback⟩, ⟨1, .gateReturn .ok⟩, ⟨1, .checkLimit⟩, ⟨1, .incOwn⟩,
   ⟨1, .incTotal⟩, ⟨1, .skipCallback⟩]

def sC10w : RunState :=
  { workers := [.atGate], counters := [2, 2], lastError := none,
    isDeadline := false, isCanceled := false, isQueryLimit := false,
    isRateError := false, isCallbackError := false }

def sC10mid : RunState :=
  { workers := [.atCallback], counters := [2, 2], lastError := none,
    isDeadline := false, isCanceled := false, isQueryLimit := false,
    isRateError := false, isCallbackError := false }

/-- Inversion view of `step`: every enabled transition has one of these shapes. -/
inductive StepShape (o : Options) (s : RunState) : Event → RunState → Prop where
  | gateOk (gid : Nat) (hgid : gid ≠ 0)
      (hw : s.workers.get? (gid - 1) = some .atGate) :
      StepShape o s ⟨gid, .gateReturn .ok⟩ (setPhase s gid .atLimitCheck)
  | gateDeadline (gid : Nat) (e : GoError) (hgid : gid ≠ 0)
      (hw : s.workers.get? (gid - 1) = some .atGate)
      (hcl : classifyIsDeadline e = true) :
      StepShape o s ⟨gid, .gateReturn (.fail e)⟩
        { (setPhase s gid .exited) with isDeadline := true }
  | gateCanceled (gid : Nat) (e : GoError) (hgid : gid ≠ 0)
      (hw : s.workers.get? (gid - 1) = some .atGate)
      (hcl : classifyIsDeadline e = false) (hce : e = .canceled) :
      StepShape o s ⟨gid, .gateReturn (.fail e)⟩
        { (setPhase s gid .exited) with isCanceled := true }
  | gateRateError (gid : Nat) (e : GoError) (hgid : gid ≠ 0)
      (hw : s.workers.get? (gid - 1) = some .atGate)
      (hcl : classifyIsDeadline e = false) (hce : e ≠ .canceled) :
      StepShape o s ⟨gid, .gateReturn (.fail e)⟩
        { (setPhase s gid .exited) with isRateError := true, lastError := some e }
  | limitReached (gid : Nat) (hgid : gid ≠ 0)
      (hw : s.workers.get? (gid - 1) = some .atLimitCheck)
      (hlim : 0 < o.limit ∧ o.limit ≤ s.counters.getD 0 0) :
      StepShape o s ⟨gid, .checkLimit⟩
        { (setPhase s gid .exited) with isQueryLimit := true }
  | limitPassed (gid : Nat) (hgid : gid ≠ 0)
      (hw : s.workers.get? (gid - 1) = some .atLimitCheck)
      (hlim : ¬(0 < o.limit ∧ o.limit ≤ s.counters.getD 0 0)) :
      StepShape o s ⟨gid, .checkLimit⟩ (setPhase s gid .atIncOwn)
  | incOwnStep (gid : Nat) (hgid : gid ≠ 0)
      (hw : s.workers.get? (gid - 1) = some .atIncOwn) :
      StepShape o s ⟨gid, .incOwn⟩
        { (setPhase s gid .atIncTotal) with counters := incAt s.counters gid }
  | incTotalStep (gid : Nat) (hgid : gid ≠ 0)
      (hw : s.workers.get? (gid - 1) = some .atIncTotal) :
      StepShape o s ⟨gid, .incTotal⟩
        { (setPhase s gid .atCallback) with counters := incAt s.counters 0 }
  | callbackOk (gid : Nat) (hgid : gid ≠ 0)
      (hw : s.workers.get? (gid - 1) = some .atCallback)
      (hcb : o.hasCallback = true) :
      StepShape o s ⟨gid, .invokeCallback none⟩ (setPhase s gid .atGate)
  | callbackFail (gid : Nat) (e : GoError) (hgid : gid ≠ 0)
      (hw : s.workers.get? (gid - 1) = some .atCallback)
      (hcb : o.hasCallback = true) :
      StepShape o s ⟨gid, .invokeCallback (some e)⟩
        { (setPhase s gid .exited) with isCallbackError := true, lastError := some e }
  | callbackNil (gid : Nat) (hgid : gid ≠ 0)
      (hw : s.workers.get? (gid - 1) = some .atCallback)
      (hcb : o.hasCallback = false) :
      StepShape o s ⟨gid, .skipCallback⟩ (setPhase s gid .atGate)

theorem step_shape {o : Options} {s : RunState} {ev : Event} {s2 : RunState}
    (h : step o s ev = some s2) : StepShape o s ev s2 := by
  obtain ⟨gid, act⟩ := ev
  unfold step at h
  by_cases hgid : gid = 0
  · simp [hgid] at h
  · rw [if_neg hgid] at h
    cases hw : s.workers.get? (gid - 1) with
    | none => rw [hw] at h; cases act <;> simp at h
    | some ph =>
      rw [hw] at h
      cases ph with
      | atGate =>
        cases act with
        | gateReturn r =>
          cases r with
          | ok => cases h; exact .gateOk gid hgid hw
          | fail e =>
            dsimp only at h
            split at h
            next hcl => cases h; exact .gateDeadline gid e hgid hw hcl
            next hcl =>
              split at h
              next hce =>
                cases h
                exact .gateCanceled gid e hgid hw (by simpa using hcl) (by simpa using hce)
              next hce =>
                cases h
                exact .gateRateError gid e hgid hw (by simpa using hcl) (by simpa using hce)
        | checkLimit => simp at h
        | incOwn => simp at h
        | incTotal => simp at h
        | invokeCallback r => simp at h
        | skipCallback => simp at h
      | atLimitCheck =>
        cases act with
        | gateReturn r => cases r <;> simp at h
        | checkLimit =>
          dsimp only at h
          split at h
          next hlim => cases h; exact .limitReached gid hgid hw hlim
          next hlim => cases h; exact .limitPassed gid hgid hw hlim
        | incOwn => simp at h
        | incTotal => simp at h
        | invokeCallback r => simp at h
        | skipCallback => simp at h
      | atIncOwn =>
        cases act with
        | gateReturn r => cases r <;> simp at h
        | checkLimit => simp at h
        | incOwn => cases h; exact .incOwnStep gid hgid hw
        | incTotal => simp at h
        | invokeCallback r => simp at h
        | skipCallback => simp at h
      | atIncTotal =>
        cases act with
        | gateReturn r => cases r <;> simp at h
        | checkLimit => simp at h
        | incOwn => simp at h
        | incTotal => cases h; exact .incTotalStep gid hgid hw
        | invokeCallback r => simp at h
        | skipCallback => simp at h
      | atCallback =>
        cases act with
        | gateReturn r => cases r <;> simp at h
        | checkLimit => simp at h
        | incOwn => simp at h
        | incTotal => simp at h
        | invokeCallback r =>
          dsimp only at h
          split at h
          next hcb =>
            cases r with
            | none => cases h; exact .callbackOk gid hgid hw hcb
            | some e => cases h; exact .callbackFail gid e hgid hw hcb
          next hcb => simp at h
        | skipCallback =>
          dsimp only at h
          split at h
          next hcb => simp at h
          next hcb =>
            cases h
            exact .callbackNil gid hgid hw (by simpa using hcb)
      | exited =>
        cases act with
        | gateReturn r => cases r <;> simp at h
        | checkLimit => simp at h
        | incOwn => simp at h
        | incTotal => simp at h
        | invokeCallback r => simp at h
        | skipCallback => simp at h


theorem U32_pos : 0 < U32 := by decide

theorem getD_tail (l : List Nat) (i : Nat) : l.tail.getD i 0 = l.getD (i + 1) 0 := by
  cases l <;> simp

theorem tail_set_succ (l : List α) (i : Nat) (x : α) :
    (l.set (i + 1) x).tail = l.tail.set i x := by
  cases l <;> rfl

theorem tail_set_zero (l : List α) (x : α) : (l.set 0 x).tail = l.tail := by
  cases l <;> rfl

theorem sum_set_add (l : List Nat) (i : Nat) (x : Nat) (h : i < l.length) :
    (l.set i x).sum + l.getD i 0 = l.sum + x := by
  induction l generalizing i with
  | nil => simp at h
  | cons a t ih =>
    cases i with
    | zero => simp; omega
    | succ i =>
      simp only [List.set, List.sum_cons, List.getD_cons_succ]
      have := ih i (by simpa using h)
      omega

theorem countP_set_get? (p : α → Bool) {l : List α} {i : Nat} {x : α}
    (h : l.get? i = some x) (a : α) :
    (l.set i a).countP p + (if p x then 1 else 0) = l.countP p + (if p a then 1 else 0) := by
  obtain ⟨hi, hx⟩ := List.get?_eq_some.1 h
  have hset := List.countP_set p l i a hi
  have hle := List.boole_getElem_le_countP p l i hi
  have hgx : l[i] = x := hx
  rw [hgx] at hset hle
  omega

theorem countP_lt_length (p : α → Bool) {l : List α} {i : Nat} {x : α}
    (h : l.get? i = some x) (hx : p x = false) : l.countP p < l.length := by
  have hm : x ∈ l := List.get?_mem h
  rcases Nat.lt_or_ge (l.countP p) l.length with h1 | h1
  · exact h1
  · have heq : l.countP p = l.length := Nat.le_antisymm (List.countP_le_length p) h1
    have := List.countP_eq_length.1 heq x hm
    rw [hx] at this
    cases this

theorem runTrace_inv (o : Options) (P : RunState → Prop) (Q : Event → Prop)
    (hstep : ∀ s ev s2, P s → Q ev → step o s ev = some s2 → P s2) :
    ∀ evs s s2, P s → (∀ ev ∈ evs, Q ev) → runTrace o s evs = some s2 → P s2 := by
  intro evs
  induction evs with
  | nil =>
    intro s s2 hP _ h
    simp only [runTrace] at h
    cases h
    exact hP
  | cons ev evs ih =>
    intro s s2 hP hQ h
    simp only [runTrace] at h
    cases hs : step o s ev with
    | none => rw [hs] at h; cases h
    | some s1 =>
      rw [hs] at h
      exact ih s1 s2 (hstep s ev s1 hP (hQ ev (List.mem_cons_self ev evs)) hs)
        (fun e he => hQ e (List.mem_cons_of_mem ev he)) h


theorem incAt_length (l : List Nat) (idx : Nat) : (incAt l idx).length = l.length := by
  simp [incAt]

theorem incAt_getD_ne (l : List Nat) {idx j : Nat} (h : idx ≠ j) :
    (incAt l idx).getD j 0 = l.getD j 0 := by
  simp [incAt, List.getD_eq_getElem?_getD, List.getElem?_set_ne h]

theorem incAt_getD_self (l : List Nat) {idx : Nat} (h : idx < l.length) :
    (incAt l idx).getD idx 0 = (l.getD idx 0 + 1) % U32 := by
  simp [incAt, List.getD_eq_getElem?_getD, List.getElem?_set_self h]

theorem initState_WF (o : Options) : WF o (initState o) := by
  refine ⟨by simp [initState], by simp [initState], ?_⟩
  intro c hc
  simp only [initState] at hc
  rw [List.eq_of_mem_replicate hc]
  exact U32_pos

theorem countP_allDone_zero {s : RunState} (hall : allDone s = true)
    {p : WPhase → Bool} (hp : p .exited = false) : s.workers.countP p = 0 := by
  rw [List.countP_eq_zero]
  intro a ha
  have h2 : (a == WPhase.exited) = true := List.all_eq_true.1 hall a ha
  have ha2 : a = WPhase.exited := by simpa using h2
  simp [ha2, hp]

theorem countP_allDone_length {s : RunState} (hall : allDone s = true)
    {p : WPhase → Bool} (hp : p .exited = true) : s.workers.countP p = s.workers.length := by
  rw [List.countP_eq_length]
  intro a ha
  have h2 : (a == WPhase.exited) = true := List.all_eq_true.1 hall a ha
  have ha2 : a = WPhase.exited := by simpa using h2
  rw [ha2, hp]

theorem step_WF {o : Options} {s : RunState} {ev : Event} {s2 : RunState}
    (h : step o s ev = some s2) (hwf : WF o s) : WF o s2 := by
  obtain ⟨hw, hc, hmem⟩ := hwf
  cases step_shape h with
  | incOwnStep gid hgid hww =>
    refine ⟨by simp [setPhase, hw], by simp [setPhase, incAt, hc], ?_⟩
    intro c hcm
    simp only [setPhase, incAt] at hcm
    rcases List.mem_or_eq_of_mem_set hcm with h1 | h1
    · exact hmem c h1
    · rw [h1]; exact Nat.mod_lt _ U32_pos
  | incTotalStep gid hgid hww =>
    refine ⟨by simp [setPhase, hw], by simp [setPhase, incAt, hc], ?_⟩
    intro c hcm
    simp only [setPhase, incAt] at hcm
    rcases List.mem_or_eq_of_mem_set hcm with h1 | h1
    · exact hmem c h1
    · rw [h1]; exact Nat.mod_lt _ U32_pos
  | _ gid =>
    first
    | exact ⟨by simp [setPhase, hw], by simpa [setPhase] using hc,
        by simpa [setPhase] using hmem⟩


theorem run_WF_pending (o : Options) (hlim : 0 < o.limit) :
    ∀ evs s, runTrace o (initState o) evs = some s →
      WF o s ∧ s.counters.getD 0 0 + pendingCount s + 1 ≤ o.limit + o.concurrency := by
  intro evs s h
  refine runTrace_inv o
    (fun t => WF o t ∧ t.counters.getD 0 0 + pendingCount t + 1 ≤ o.limit + o.concurrency)
    (fun _ => True) ?_ evs (initState o) s ⟨initState_WF o, ?_⟩ (fun _ _ => trivial) h
  · rintro t ev t2 ⟨hwf, hinv⟩ - hs
    refine ⟨step_WF hs hwf, ?_⟩
    obtain ⟨hw, hc, -⟩ := hwf
    cases step_shape hs with
    | gateOk gid hgid hww =>
      have hcnt := countP_set_get? isPending hww WPhase.atLimitCheck
      simp [isPending] at hcnt
      simp only [pendingCount, setPhase] at hinv ⊢
      omega
    | gateDeadline gid e hgid hww hcl =>
      have hcnt := countP_set_get? isPending hww WPhase.exited
      simp [isPending] at hcnt
      simp only [pendingCount, setPhase] at hinv ⊢
      omega
    | gateCanceled gid e hgid hww hcl hce =>
      have hcnt := countP_set_get? isPending hww WPhase.exited
      simp [isPending] at hcnt
      simp only [pendingCount, setPhase] at hinv ⊢
      omega
    | gateRateError gid e hgid hww hcl hce =>
      have hcnt := countP_set_get? isPending hww WPhase.exited
      simp [isPending] at hcnt
      simp only [pendingCount, setPhase] at hinv ⊢
      omega
    | limitReached gid hgid hww hlimc =>
      have hcnt := countP_set_get? isPending hww WPhase.exited
      simp [isPending] at hcnt
      simp only [pendingCount, setPhase] at hinv ⊢
      omega
    | limitPassed gid hgid hww hlimc =>
      have hcnt := countP_set_get? isPending hww WPhase.atIncOwn
      simp [isPending] at hcnt
      have hplt := countP_lt_length isPending hww (by decide)
      simp only [pendingCount, setPhase] at hinv ⊢
      omega
    | incOwnStep gid hgid hww =>
      have hcnt := countP_set_get? isPending hww WPhase.atIncTotal
      simp [isPending] at hcnt
      simp only [pendingCount, setPhase] at hinv ⊢
      rw [incAt_getD_ne t.counters hgid]
      omega
    | incTotalStep gid hgid hww =>
      have hcnt := countP_set_get? isPending hww WPhase.atCallback
      simp [isPending] at hcnt
      have hlen : (0 : Nat) < t.counters.length := by omega
      have hself := incAt_getD_self t.counters hlen
      have hmle : (t.counters.getD 0 0 + 1) % U32 ≤ t.counters.getD 0 0 + 1 :=
        Nat.mod_le _ _
      simp only [pendingCount, setPhase] at hinv ⊢
      rw [hself]
      omega
    | callbackOk gid hgid hww hcb =>
      have hcnt := countP_set_get? isPending hww WPhase.atGate
      simp [isPending] at hcnt
      simp only [pendingCount, setPhase] at hinv ⊢
      omega
    | callbackFail gid e hgid hww hcb =>
      have hcnt := countP_set_get? isPending hww WPhase.exited
      simp [isPending] at hcnt
      simp only [pendingCount, setPhase] at hinv ⊢
      omega
    | callbackNil gid hgid hww hcb =>
      have hcnt := countP_set_get? isPending hww WPhase.atGate
      simp [isPending] at hcnt
      simp only [pendingCount, setPhase] at hinv ⊢
      omega
  · have h0 : pendingCount (initState o) = 0 := by
      rw [pendingCount, List.countP_eq_zero]
      intro a ha
      simp only [initState] at ha
      rw [List.eq_of_mem_replicate ha]
      decide
    have hg : (initState o).counters.getD 0 0 = 0 := by
      simp [initState, List.replicate_succ]
    omega

theorem run_WF_sumTail (o : Options) :
    ∀ evs s, runTrace o (initState o) evs = some s →
      WF o s ∧ s.counters.tail.sum % U32 = (s.counters.getD 0 0 + betweenCount s) % U32 := by
  intro evs s h
  refine runTrace_inv o
    (fun t => WF o t ∧ t.counters.tail.sum % U32 = (t.counters.getD 0 0 + betweenCount t) % U32)
    (fun _ => True) ?_ evs (initState o) s ⟨initState_WF o, ?_⟩ (fun _ _ => trivial) h
  · rintro t ev t2 ⟨hwf, hinv⟩ - hs
    refine ⟨step_WF hs hwf, ?_⟩
    obtain ⟨hw, hc, -⟩ := hwf
    have hU : U32 = 4294967296 := by decide
    cases step_shape hs with
    | gateOk gid hgid hww =>
      have hcnt := countP_set_get? isBetween hww WPhase.atLimitCheck
      simp [isBetween] at hcnt
      simp only [betweenCount, setPhase] at hinv ⊢
      rw [hU] at hinv ⊢
      omega
    | gateDeadline gid e hgid hww hcl =>
      have hcnt := countP_set_get? isBetween hww WPhase.exited
      simp [isBetween] at hcnt
      simp only [betweenCount, setPhase] at hinv ⊢
      rw [hU] at hinv ⊢
      omega
    | gateCanceled gid e hgid hww hcl hce =>
      have hcnt := countP_set_get? isBetween hww WPhase.exited
      simp [isBetween] at hcnt
      simp only [betweenCount, setPhase] at hinv ⊢
      rw [hU] at hinv ⊢
      omega
    | gateRateError gid e hgid hww hcl hce =>
      have hcnt := countP_set_get? isBetween hww WPhase.exited
      simp [isBetween] at hcnt
      simp only [betweenCount, setPhase] at hinv ⊢
      rw [hU] at hinv ⊢
      omega
    | limitReached gid hgid hww hlimc =>
      have hcnt := countP_set_get? isBetween hww WPhase.exited
      simp [isBetween] at hcnt
      simp only [betweenCount, setPhase] at hinv ⊢
      rw [hU] at hinv ⊢
      omega
    | limitPassed gid hgid hww hlimc =>
      have hcnt := countP_set_get? isBetween hww WPhase.atIncOwn
      simp [isBetween] at hcnt
      simp only [betweenCount, setPhase] at hinv ⊢
      rw [hU] at hinv ⊢
      omega
    | incOwnStep gid hgid hww =>
      obtain ⟨g, rfl⟩ : ∃ g, gid = g + 1 := ⟨gid - 1, by omega⟩
      have hcnt := countP_set_get? isBetween hww WPhase.atIncTotal
      simp [isBetween] at hcnt
      have htail : (incAt t.counters (g + 1)).tail =
          t.counters.tail.set g ((t.counters.getD (g + 1) 0 + 1) % U32) := by
        rw [incAt]; exact tail_set_succ t.counters g _
      have hglen : g < t.counters.tail.length := by
        have hlt : g + 1 - 1 < t.workers.length := (List.get?_eq_some.1 hww).1
        simp only [List.length_tail]
        omega
      have hsum := sum_set_add t.counters.tail g ((t.counters.getD (g + 1) 0 + 1) % U32) hglen
      rw [getD_tail] at hsum
      simp only [betweenCount, setPhase, Nat.add_sub_cancel] at hinv ⊢
      rw [htail, incAt_getD_ne t.counters (by omega : g + 1 ≠ 0)]
      rw [hU] at hinv hsum ⊢
      omega
    | incTotalStep gid hgid hww =>
      have hcnt := countP_set_get? isBetween hww WPhase.atCallback
      simp [isBetween] at hcnt
      have hlen0 : (0 : Nat) < t.counters.length := by omega
      have hself := incAt_getD_self t.counters hlen0
      have htail : (incAt t.counters 0).tail = t.counters.tail := by
        rw [incAt]; exact tail_set_zero _ _
      simp only [betweenCount, setPhase] at hinv ⊢
      rw [htail, hself]
      rw [hU] at hinv ⊢
      omega
    | callbackOk gid hgid hww hcb =>
      have hcnt := countP_set_get? isBetween hww WPhase.atGate
      simp [isBetween] at hcnt
      simp only [betweenCount, setPhase] at hinv ⊢
      rw [hU] at hinv ⊢
      omega
    | callbackFail gid e hgid hww hcb =>
      have hcnt := countP_set_get? isBetween hww WPhase.exited
      simp [isBetween] at hcnt
      simp only [betweenCount, setPhase] at hinv ⊢
      rw [hU] at hinv ⊢
      omega
    | callbackNil gid hgid hww hcb =>
      have hcnt := countP_set_get? isBetween hww WPhase.atGate
      simp [isBetween] at hcnt
      simp only [betweenCount, setPhase] at hinv ⊢
      rw [hU] at hinv ⊢
      omega
  · have h0 : betweenCount (initState o) = 0 := by
      rw [betweenCount, List.countP_eq_zero]
      intro a ha
      simp only [initState] at ha
      rw [List.eq_of_mem_replicate ha]
      decide
    have hg : (initState o).counters.getD 0 0 = 0 := by
      simp [initState, List.replicate_succ]
    have hsum0 : (initState o).counters.tail.sum = 0 := by
      simp [initState, List.replicate_succ, List.sum_replicate]
    rw [h0, hg, hsum0]

theorem step_lastError {o : Options} {s : RunState} {ev : Event} {s2 : RunState}
    (h : step o s ev = some s2) :
    s2.lastError = (stepRecordsError o s ev).elim s.lastError some := by
  cases step_shape h with
  | gateOk gid hgid hww => simp [stepRecordsError, setPhase, hgid, hww]
  | gateDeadline gid e hgid hww hcl =>
    rw [List.get?_eq_getElem?] at hww
    simp [stepRecordsError, setPhase, hgid, hww, hcl]
  | gateCanceled gid e hgid hww hcl hce =>
    subst hce
    rw [List.get?_eq_getElem?] at hww
    simp [stepRecordsError, setPhase, hgid, hww, hcl]
  | gateRateError gid e hgid hww hcl hce =>
    rw [List.get?_eq_getElem?] at hww
    simp [stepRecordsError, setPhase, hgid, hww, hcl, hce]
  | limitReached gid hgid hww hlimc => simp [stepRecordsError, setPhase, hgid, hww]
  | limitPassed gid hgid hww hlimc => simp [stepRecordsError, setPhase, hgid, hww]
  | incOwnStep gid hgid hww => simp [stepRecordsError, setPhase, hgid, hww]
  | incTotalStep gid hgid hww => simp [stepRecordsError, setPhase, hgid, hww]
  | callbackOk gid hgid hww hcb => simp [stepRecordsError, setPhase, hgid, hww]
  | callbackFail gid e hgid hww hcb =>
    rw [List.get?_eq_getElem?] at hww
    simp [stepRecordsError, setPhase, hgid, hww, hcb]
  | callbackNil gid hgid hww hcb => simp [stepRecordsError, setPhase, hgid, hww]

theorem runTrace_lastError (o : Options) :
    ∀ evs s0 s, runTrace o s0 evs = some s →
      s.lastError = (recordedErrors o s0 evs).foldl (fun _ e => some e) s0.lastError := by
  intro evs
  induction evs with
  | nil =>
    intro s0 s h
    simp only [runTrace] at h
    cases h
    simp [recordedErrors]
  | cons ev evs ih =>
    intro s0 s h
    simp only [runTrace] at h
    cases hs : step o s0 ev with
    | none => rw [hs] at h; cases h
    | some s1 =>
      rw [hs] at h
      have h1 := ih s1 s h
      have h2 := step_lastError hs
      simp only [recordedErrors, hs]
      cases hre : stepRecordsError o s0 ev with
      | none =>
        rw [hre] at h2
        simp only [Option.elim] at h2
        simp only [Option.toList, List.nil_append]
        rw [h1, h2]
      | some e =>
        rw [hre] at h2
        simp only [Option.elim] at h2
        simp only [Option.toList, List.cons_append, List.nil_append, List.foldl_cons]
        rw [h1, h2]

theorem run_lastError_flags (o : Options) :
    ∀ evs s, runTrace o (initState o) evs = some s →
      (s.lastError = none ↔ s.isRateError = false ∧ s.isCallbackError = false) := by
  intro evs s h
  refine runTrace_inv o
    (fun t => t.lastError = none ↔ t.isRateError = false ∧ t.isCallbackError = false)
    (fun _ => True) ?_ evs (initState o) s ?_ (fun _ _ => trivial) h
  · rintro t ev t2 hinv - hs
    cases step_shape hs with
    | gateOk gid hgid hww => simpa [setPhase] using hinv
    | gateDeadline gid e hgid hww hcl => simpa [setPhase] using hinv
    | gateCanceled gid e hgid hww hcl hce => simpa [setPhase] using hinv
    | gateRateError gid e hgid hww hcl hce => simp [setPhase]
    | limitReached gid hgid hww hlimc => simpa [setPhase] using hinv
    | limitPassed gid hgid hww hlimc => simpa [setPhase] using hinv
    | incOwnStep gid hgid hww => simpa [setPhase] using hinv
    | incTotalStep gid hgid hww => simpa [setPhase] using hinv
    | callbackOk gid hgid hww hcb => simpa [setPhase] using hinv
    | callbackFail gid e hgid hww hcb => simp [setPhase]
    | callbackNil gid hgid hww hcb => simpa [setPhase] using hinv
  · simp [initState]

theorem run_alwaysFailingCallback (o : Options) (e0 : GoError)
    (hlt : o.concurrency < U32) (hcb : o.hasCallback = true)
    (hvalid : o.limit = 0 ∨ o.concurrency ≤ o.limit) :
    ∀ evs s, runTrace o (initState o) evs = some s →
      (∀ ev ∈ evs, gatesOkCbFails e0 ev = true) →
      WF o s ∧ s.counters.getD 0 0 = passedCount s ∧
        (0 < exitedCount s → s.isCallbackError = true ∧ s.lastError = some e0) := by
  intro evs s h hQ
  refine runTrace_inv o
    (fun t => WF o t ∧ t.counters.getD 0 0 = passedCount t ∧
      (0 < exitedCount t → t.isCallbackError = true ∧ t.lastError = some e0))
    (fun ev => gatesOkCbFails e0 ev = true) ?_ evs (initState o) s
    ⟨initState_WF o, ?_, ?_⟩ hQ h
  · rintro t ev t2 ⟨hwf, hpc, hfl⟩ hQe hs
    have hwf2 := step_WF hs hwf
    obtain ⟨hw, hc, -⟩ := hwf
    have hU : U32 = 4294967296 := by decide
    cases step_shape hs with
    | gateOk gid hgid hww =>
      have hp := countP_set_get? isPassed hww WPhase.atLimitCheck
      have hx := countP_set_get? isExited hww WPhase.atLimitCheck
      simp [isPassed] at hp
      simp [isExited] at hx
      refine ⟨hwf2, ?_, ?_⟩
      · simp only [passedCount, setPhase] at hpc ⊢
        omega
      · intro hpos
        simp only [exitedCount, setPhase] at hpos ⊢
        rw [hx] at hpos
        have := hfl hpos
        simpa [setPhase] using this
    | gateDeadline gid e hgid hww hcl =>
      simp [gatesOkCbFails, gatesOk, cbAlwaysFails] at hQe
    | gateCanceled gid e hgid hww hcl hce =>
      simp [gatesOkCbFails, gatesOk, cbAlwaysFails] at hQe
    | gateRateError gid e hgid hww hcl hce =>
      simp [gatesOkCbFails, gatesOk, cbAlwaysFails] at hQe
    | limitReached gid hgid hww hlimc =>
      exfalso
      have hplt := countP_lt_length isPassed hww (by decide)
      simp only [passedCount] at hpc
      rcases hvalid with h0 | hge
      · omega
      · omega
    | limitPassed gid hgid hww hlimc =>
      have hp := countP_set_get? isPassed hww WPhase.atIncOwn
      have hx := countP_set_get? isExited hww WPhase.atIncOwn
      simp [isPassed] at hp
      simp [isExited] at hx
      refine ⟨hwf2, ?_, ?_⟩
      · simp only [passedCount, setPhase] at hpc ⊢
        omega
      · intro hpos
        simp only [exitedCount, setPhase] at hpos ⊢
        rw [hx] at hpos
        have := hfl hpos
        simpa [setPhase] using this
    | incOwnStep gid hgid hww =>
      have hp := countP_set_get? isPassed hww WPhase.atIncTotal
      have hx := countP_set_get? isExited hww WPhase.atIncTotal
      simp [isPassed] at hp
      simp [isExited] at hx
      refine ⟨hwf2, ?_, ?_⟩
      · simp only [passedCount, setPhase] at hpc ⊢
        rw [incAt_getD_ne t.counters hgid]
        omega
      · intro hpos
        simp only [exitedCount, setPhase] at hpos ⊢
        rw [hx] at hpos
        have := hfl hpos
        simpa [setPhase] using this
    | incTotalStep gid hgid hww =>
      have hp := countP_set_get? isPassed hww WPhase.atCallback
      have hx := countP_set_get? isExited hww WPhase.atCallback
      simp [isPassed] at hp
      simp [isExited] at hx
      have hplt := countP_lt_length isPassed hww (by decide)
      have hlen0 : (0 : Nat) < t.counters.length := by omega
      have hself := incAt_getD_self t.counters hlen0
      refine ⟨hwf2, ?_, ?_⟩
      · simp only [passedCount, setPhase] at hpc ⊢
        rw [hself, Nat.mod_eq_of_lt (by omega)]
        omega
      · intro hpos
        simp only [exitedCount, setPhase] at hpos ⊢
        rw [hx] at hpos
        have := hfl hpos
        simpa [setPhase] using this
    | callbackOk gid hgid hww hcbt =>
      simp [gatesOkCbFails, gatesOk, cbAlwaysFails] at hQe
    | callbackFail gid e hgid hww hcbt =>
      have hQe2 : e = e0 := by simpa [gatesOkCbFails, gatesOk, cbAlwaysFails] using hQe
      subst hQe2
      have hp := countP_set_get? isPassed hww WPhase.exited
      simp [isPassed] at hp
      refine ⟨hwf2, ?_, ?_⟩
      · simp only [passedCount, setPhase] at hpc ⊢
        omega
      · intro hpos
        simp [setPhase]
    | callbackNil gid hgid hww hcbf =>
      rw [hcb] at hcbf
      cases hcbf
  · have h0 : passedCount (initState o) = 0 := by
      rw [passedCount, List.countP_eq_zero]
      intro a ha
      simp only [initState] at ha
      rw [List.eq_of_mem_replicate ha]
      decide
    have hg : (initState o).counters.getD 0 0 = 0 := by
      simp [initState, List.replicate_succ]
    omega
  · have h0 : exitedCount (initState o) = 0 := by
      rw [exitedCount, List.countP_eq_zero]
      intro a ha
      simp only [initState] at ha
      rw [List.eq_of_mem_replicate ha]
      decide
    intro hpos
    rw [h0] at hpos
    exact absurd hpos (Nat.lt_irrefl 0)

theorem runTrace_concurrency_zero (o : Options) (h0 : o.concurrency = 0) :
    ∀ evs s, runTrace o (initState o) evs = some s → s = initState o := by
  intro evs s h
  cases evs with
  | nil =>
    simp only [runTrace] at h
    cases h
    rfl
  | cons ev evs =>
    exfalso
    simp only [runTrace] at h
    cases hs : step o (initState o) ev with
    | none => rw [hs] at h; cases h
    | some s1 =>
      cases step_shape hs <;> simp_all [initState, h0]

theorem runTrace_nil_callback (o : Options) (hcb : o.hasCallback = false) :
    ∀ evs s0 s, s0.isCallbackError = false → runTrace o s0 evs = some s →
      s.isCallbackError = false ∧ ∀ ev ∈ evs, ∀ r, ev.act ≠ Action.invokeCallback r := by
  intro evs
  induction evs with
  | nil =>
    intro s0 s h0 h
    simp only [runTrace] at h
    cases h
    exact ⟨h0, by simp⟩
  | cons ev evs ih =>
    intro s0 s h0 h
    simp only [runTrace] at h
    cases hs : step o s0 ev with
    | none => rw [hs] at h; cases h
    | some s1 =>
      rw [hs] at h
      have hflag : s1.isCallbackError = false ∧ ∀ r, ev.act ≠ Action.invokeCallback r := by
        cases step_shape hs with
        | callbackOk gid hgid hww hcbt => rw [hcb] at hcbt; cases hcbt
        | callbackFail gid e hgid hww hcbt => rw [hcb] at hcbt; cases hcbt
        | gateOk gid hgid hww => exact ⟨by simpa [setPhase] using h0, by simp⟩
        | gateDeadline gid e hgid hww hcl => exact ⟨by simpa [setPhase] using h0, by simp⟩
        | gateCanceled gid e hgid hww hcl hce => exact ⟨by simpa [setPhase] using h0, by simp⟩
        | gateRateError gid e hgid hww hcl hce => exact ⟨by simpa [setPhase] using h0, by simp⟩
        | limitReached gid hgid hww hlimc => exact ⟨by simpa [setPhase] using h0, by simp⟩
        | limitPassed gid hgid hww hlimc => exact ⟨by simpa [setPhase] using h0, by simp⟩
        | incOwnStep gid hgid hww => exact ⟨by simpa [setPhase] using h0, by simp⟩
        | incTotalStep gid hgid hww => exact ⟨by simpa [setPhase] using h0, by simp⟩
        | callbackNil gid hgid hww hcbf => exact ⟨by simpa [setPhase] using h0, by simp⟩
      obtain ⟨hf1, hne⟩ := hflag
      have hrest := ih s1 s hf1 h
      refine ⟨hrest.1, ?_⟩
      intro e he r
      rcases List.mem_cons.1 he with rfl | hm
      · exact hne r
      · exact hrest.2 e hm r

theorem step_skipCallback (o : Options) (hcb : o.hasCallback = false)
    (s : RunState) (gid : Nat) (hgid : gid ≠ 0)
    (hww : s.workers.get? (gid - 1) = some WPhase.atCallback) :
    step o s ⟨gid, Action.skipCallback⟩ = some (setPhase s gid WPhase.atGate) := by
  unfold step
  rw [if_neg hgid, hww]
  simp [hcb]


theorem WF_c0_lt {o : Options} {s : RunState} (hwf : WF o s) :
    s.counters.getD 0 0 < U32 := by
  obtain ⟨-, hc, hmem⟩ := hwf
  cases hcs : s.counters with
  | nil => rw [hcs] at hc; simp at hc
  | cons c rest =>
    have hcm : c ∈ s.counters := by rw [hcs]; exact List.mem_cons_self c rest
    have := hmem c hcm
    simpa using this

/-- Claim C1: for every run with `Limit > 0` and `Concurrency = N`, the
aggregate counter (index 0) at the moment `Run()` returns is at most
`Limit + N - 1`: the query-limit check happens before the increment, so at
most `N` workers can race past it. -/
theorem aggregate_soft_cap (o : Options) (hlim : 0 < o.limit)
    (evs : List Event) (s : RunState)
    (hrun : runTrace o (initState o) evs = some s) (hdone : allDone s = true) :
    s.counters.getD 0 0 ≤ o.limit + o.concurrency - 1 := by
  obtain ⟨hwf, hbound⟩ := run_WF_pending o hlim evs s hrun
  have hp : pendingCount s = 0 := by
    rw [pendingCount]
    exact countP_allDone_zero hdone (by decide)
  omega

/-- Concrete completed run reaching the soft cap, instantiating C1. -/
theorem aggregate_soft_cap_witness :
    (0 < oC1w.limit ∧ runTrace oC1w (initState oC1w) evsC1w = some sC1w ∧
        allDone sC1w = true) ∧
      sC1w.counters.getD 0 0 ≤ oC1w.limit + oC1w.concurrency - 1 :=
  ⟨⟨by decide, by decide, by decide⟩,
   aggregate_soft_cap oC1w (by decide) evsC1w sC1w (by decide) (by decide)⟩

/-- Claim C2 is false as stated: right between the two atomic increments of
lines 153 and 154 (a reachable observation point) the per-worker sum exceeds
the aggregate counter. -/
theorem sum_equals_aggregate_counterexample :
    runTrace oC2x (initState oC2x) evsC2x = some sC2x ∧
      ¬(sC2x.counters.tail.sum = sC2x.counters.getD 0 0) :=
  ⟨by decide, by decide⟩

/-- Claim C2 (amended): at every observation point the sum of the per-worker
counters is congruent mod `2^32` to the aggregate counter plus the number of
workers that sit between their two increments; whenever no worker is in that
window (in particular once `Run()` has returned) the reduced sum equals the
aggregate counter. -/
theorem sum_aggregate_congruence (o : Options) (evs : List Event) (s : RunState)
    (hrun : runTrace o (initState o) evs = some s) :
    s.counters.tail.sum % U32 = (s.counters.getD 0 0 + betweenCount s) % U32 ∧
      (betweenCount s = 0 → s.counters.tail.sum % U32 = s.counters.getD 0 0) := by
  obtain ⟨hwf, hcong⟩ := run_WF_sumTail o evs s hrun
  refine ⟨hcong, ?_⟩
  intro hb
  rw [hb, Nat.add_zero] at hcong
  rw [hcong, Nat.mod_eq_of_lt (WF_c0_lt hwf)]

/-- Concrete completed run instantiating the amended C2. -/
theorem sum_aggregate_congruence_witness :
    runTrace oC2w (initState oC2w) evsC2w = some sC2w ∧
      sC2w.counters.tail.sum % U32 = sC2w.counters.getD 0 0 :=
  ⟨by decide, (sum_aggregate_congruence oC2w evsC2w sC2w (by decide)).2 (by decide)⟩

/-- Claim C3: `New` returns a validation error exactly when
`(Limit > 0 and Limit < Concurrency)` or `(Limit = 0 and Duration = 0)`;
otherwise it returns a limiter; in particular `Limit = Concurrency` is
accepted whenever the unbounded-unbounded rule does not also fire. -/
theorem new_validation (o : Options) :
    (newOk o = false ↔
        ((0 < o.limit ∧ o.limit < o.concurrency) ∨ (o.limit = 0 ∧ o.duration = 0))) ∧
      (o.limit = o.concurrency → ¬(o.limit = 0 ∧ o.duration = 0) → newOk o = true) := by
  constructor
  · rw [newOk, New]
    split_ifs with h1 h2
    · simpa using Or.inl h1
    · simpa using Or.inr h2
    · simp [h1, h2]
  · intro heq hnz
    rw [newOk, New, if_neg (by omega), if_neg hnz]

/-- Concrete rejected and accepted configurations instantiating C3. -/
theorem new_validation_witness :
    newOk oC3e = false ∧ newOk oC3a = true :=
  ⟨(new_validation oC3e).1.mpr (Or.inl (by decide)),
   (new_validation oC3a).2 rfl (by decide)⟩

/-- Claim C4: `Run()` returns `limiter.lastError`, which is the last error
recorded by a gate (rate) failure or a callback failure, and is absent
exactly when neither the rate-error nor the callback-error flag was set —
deadline, cancellation and the query limit never touch it. -/
theorem run_error_reporting (o : Options) (evs : List Event) (s : RunState)
    (hrun : runTrace o (initState o) evs = some s) :
    s.lastError = (recordedErrors o (initState o) evs).foldl (fun _ e => some e) none ∧
      (s.lastError = none ↔ s.isRateError = false ∧ s.isCallbackError = false) := by
  constructor
  · have h := runTrace_lastError o evs (initState o) s hrun
    simpa [initState] using h
  · exact run_lastError_flags o evs s hrun

/-- Concrete run with a gate error instantiating C4. -/
theorem run_error_reporting_witness :
    runTrace oC4w (initState oC4w) evsC4w = some sC4w ∧
      (sC4w.lastError =
          (recordedErrors oC4w (initState oC4w) evsC4w).foldl (fun _ e => some e) none ∧
        (sC4w.lastError = none ↔ sC4w.isRateError = false ∧ sC4w.isCallbackError = false)) :=
  ⟨by decide, run_error_reporting oC4w evsC4w sC4w (by decide)⟩

/-- Claim C5 is false as stated: in a valid configuration with a duration and
an always-failing callback, the deadline can preempt every worker before its
first callback, so the run ends with `IsCallbackError()` false and an
aggregate count different from the concurrency. -/
theorem always_failing_callback_counterexample :
    (0 < oC5x.concurrency ∧ oC5x.hasCallback = true ∧ oC5x.limit = 0 ∧
        oC5x.duration = 1000) ∧
      runTrace oC5x (initState oC5x) evsC5x = some sC5x ∧ allDone sC5x = true ∧
      evsC5x.all (cbAlwaysFails (GoError.other "cb failed")) = true ∧
      sC5x.isCallbackError = false ∧ sC5x.lastError = none ∧
      ¬(sC5x.counters.getD 0 0 = oC5x.concurrency) :=
  ⟨by decide, by decide, by decide, by decide, by decide, by decide, by decide⟩

/-- Claim C5 (amended): provided additionally that every gate wait is
admitted, a run with `Concurrency = N > 0` and an always-failing callback
completes with the callback-error flag set, `lastError` equal to the
callback failure (so `Run()` returns it, non-nil), and aggregate count
exactly `N`. -/
theorem always_failing_callback_run (o : Options) (e0 : GoError)
    (hconc : 0 < o.concurrency) (hlt : o.concurrency < U32)
    (hcb : o.hasCallback = true) (hvalid : o.limit = 0 ∨ o.concurrency ≤ o.limit)
    (evs : List Event) (s : RunState)
    (hrun : runTrace o (initState o) evs = some s)
    (hsched : ∀ ev ∈ evs, gatesOkCbFails e0 ev = true)
    (hdone : allDone s = true) :
    s.isCallbackError = true ∧ s.lastError = some e0 ∧
      s.counters.getD 0 0 = o.concurrency ∧ s.lastError ≠ none := by
  obtain ⟨hwf, hpc, hfl⟩ := run_alwaysFailingCallback o e0 hlt hcb hvalid evs s hrun hsched
  obtain ⟨hw, -, -⟩ := hwf
  have hpassed : passedCount s = s.workers.length := by
    rw [passedCount]
    exact countP_allDone_length hdone (by decide)
  have hexit : exitedCount s = s.workers.length := by
    rw [exitedCount]
    exact countP_allDone_length hdone (by decide)
  have hpos : 0 < exitedCount s := by omega
  obtain ⟨hcberr, hlerr⟩ := hfl hpos
  refine ⟨hcberr, hlerr, by omega, ?_⟩
  rw [hlerr]
  exact fun hh => Option.noConfusion hh

/-- Concrete completed always-failing-callback run instantiating amended C5. -/
theorem always_failing_callback_run_witness :
    (0 < oC5w.concurrency ∧ oC5w.hasCallback = true ∧ allDone sC5w = true) ∧
      (sC5w.isCallbackError = true ∧ sC5w.lastError = some eC5w ∧
        sC5w.counters.getD 0 0 = oC5w.concurrency ∧ sC5w.lastError ≠ none) :=
  ⟨⟨by decide, by decide, by decide⟩,
   always_failing_callback_run oC5w eC5w (by decide) (by decide) (by decide)
     (Or.inl (by decide)) evsC5w sC5w (by decide) (by decide) (by decide)⟩

/-- Claim C6: once `Run()` has allocated the counters (any reachable run
state), `NumOfQueriesByGroupID id` returns the per-worker count stored at
index `id` for `1 ≤ id ≤ Concurrency` and `0` for every other `id`. -/
theorem numOfQueriesByGroupID_bounds (o : Options) (evs : List Event) (s : RunState)
    (hrun : runTrace o (initState o) evs = some s) (id : Int) :
    (1 ≤ id → id ≤ (o.concurrency : Int) →
        NumOfQueriesByGroupID s.counters id = (s.counters.getD id.toNat 0 : Int)) ∧
      ((id < 1 ∨ (o.concurrency : Int) < id) → NumOfQueriesByGroupID s.counters id = 0) := by
  have hwf := (run_WF_sumTail o evs s hrun).1
  obtain ⟨-, hc, -⟩ := hwf
  constructor
  · intro h1 h2
    have hcond : 0 < id ∧ id < (s.counters.length : Int) := by
      rw [hc]
      push_cast
      omega
    rw [NumOfQueriesByGroupID, if_pos hcond]
  · intro hout
    have hcond : ¬(0 < id ∧ id < (s.counters.length : Int)) := by
      rw [hc]
      push_cast
      omega
    rw [NumOfQueriesByGroupID, if_neg hcond]

/-- Concrete accessor reads on a finished run instantiating C6. -/
theorem numOfQueriesByGroupID_bounds_witness :
    NumOfQueriesByGroupID sC6w.counters 1 = (sC6w.counters.getD (1 : Int).toNat 0 : Int) ∧
      NumOfQueriesByGroupID sC6w.counters 2 = 0 :=
  ⟨(numOfQueriesByGroupID_bounds oC6w evsC6w sC6w (by decide) 1).1 (by decide) (by decide),
   (numOfQueriesByGroupID_bounds oC6w evsC6w sC6w (by decide) 2).2 (by decide)⟩

/-- Claim C7: once the `done` flag is set, `Since` returns the frozen `since`
value whatever the current instant, so repeated reads never decrease; while
`done` is unset it reports live time since `start`, monotone in the current
instant. -/
theorem since_frozen_and_monotone (d : Bool) (sinceV startV now1 now2 : Int) :
    (d = true → Since d sinceV startV now1 = Since d sinceV startV now2) ∧
      (d = false → now1 ≤ now2 →
        Since d sinceV startV now1 ≤ Since d sinceV startV now2) := by
  constructor
  · intro h
    simp [Since, h]
  · intro h h12
    simp [Since, h]
    omega

/-- Concrete frozen and live reads instantiating C7. -/
theorem since_frozen_and_monotone_witness :
    Since true 7 2 10 = Since true 7 2 99 ∧ Since false 7 2 10 ≤ Since false 7 2 12 :=
  ⟨(since_frozen_and_monotone true 7 2 10 99).1 rfl,
   (since_frozen_and_monotone false 7 2 10 12).2 rfl (by decide)⟩

/-- Claim C8 is false for `NumOfQueriesByGroupID`: on a limiter fresh from
`New` (nil counters slice) an id inside `[1, Concurrency]` does not panic —
the `id < len(counters)` guard fails against length `0` and the accessor
returns `0`. -/
theorem accessors_before_run_counterexample :
    New oC8 = Except.ok lC8 ∧ lC8.counters = [] ∧ oC8.concurrency = 2 ∧
      NumOfQueriesByGroupID lC8.counters 1 = 0 :=
  ⟨rfl, rfl, rfl, by decide⟩

/-- Claim C8 (amended): before `Run()` the counters slice is nil, so
`NumOfQueries` panics (models as `none`, an out-of-range index), while
`NumOfQueriesByGroupID` returns `0` for every id thanks to its length
guard. -/
theorem accessors_before_run (o : Options) (l : Limiter)
    (hok : New o = Except.ok l) :
    NumOfQueries l.counters = none ∧ ∀ id : Int, NumOfQueriesByGroupID l.counters id = 0 := by
  by_cases h1 : 0 < o.limit ∧ o.limit < o.concurrency
  · rw [New, if_pos h1] at hok
    cases hok
  · by_cases h2 : o.limit = 0 ∧ o.duration = 0
    · rw [New, if_neg h1, if_pos h2] at hok
      cases hok
    · rw [New, if_neg h1, if_neg h2] at hok
      cases hok
      refine ⟨rfl, ?_⟩
      intro id
      rw [NumOfQueriesByGroupID]
      split_ifs with hcond
      · exfalso
        simp at hcond
        omega
      · rfl

/-- Concrete pre-run accessor reads instantiating amended C8. -/
theorem accessors_before_run_witness :
    NumOfQueries lC8.counters = none ∧ NumOfQueriesByGroupID lC8.counters 7 = 0 :=
  ⟨(accessors_before_run oC8 lC8 rfl).1, (accessors_before_run oC8 lC8 rfl).2 7⟩

/-- Claim C9: a configuration with `Concurrency = 0` and `Limit` or
`Duration` nonzero passes validation, and its run spawns no workers: the
only schedule is empty, the rendezvous is immediate, the counters slice is
`[0]` (length 1), no flag is set and no error is returned. -/
theorem zero_concurrency_run (o : Options) (h0 : o.concurrency = 0)
    (hval : ¬(o.limit = 0 ∧ o.duration = 0)) :
    newOk o = true ∧
      ∀ evs s, runTrace o (initState o) evs = some s →
        s = initState o ∧ allDone s = true ∧ s.counters = [0] ∧ s.lastError = none ∧
          s.isDeadline = false ∧ s.isCanceled = false ∧ s.isQueryLimit = false ∧
          s.isRateError = false ∧ s.isCallbackError = false := by
  constructor
  · rw [newOk, New, if_neg (by omega), if_neg hval]
  · intro evs s hrun
    have hs := runTrace_concurrency_zero o h0 evs s hrun
    subst hs
    refine ⟨rfl, ?_, ?_, rfl, rfl, rfl, rfl, rfl, rfl⟩
    · rw [allDone, initState]
      simp [h0]
    · rw [initState]
      simp [h0, List.replicate_succ]

/-- Concrete zero-concurrency configuration instantiating C9. -/
theorem zero_concurrency_run_witness :
    newOk oC9w = true ∧ allDone (initState oC9w) = true ∧
      (initState oC9w).counters = [0] ∧ (initState oC9w).lastError = none :=
  ⟨(zero_concurrency_run oC9w rfl (by decide)).1,
   ((zero_concurrency_run oC9w rfl (by decide)).2 [] (initState oC9w) rfl).2.1,
   ((zero_concurrency_run oC9w rfl (by decide)).2 [] (initState oC9w) rfl).2.2.1,
   ((zero_concurrency_run oC9w rfl (by decide)).2 [] (initState oC9w) rfl).2.2.2.1⟩

/-- Claim C10: a nil callback passes validation; during such a run the
callback branch is never taken (no `invokeCallback` event is enabled), the
callback-error flag stays clear, and a worker at the callback point simply
continues its loop after having incremented both counters. -/
theorem nil_callback_safe (o : Options) (hcb : o.hasCallback = false) :
    ((¬(0 < o.limit ∧ o.limit < o.concurrency) ∧ ¬(o.limit = 0 ∧ o.duration = 0)) →
        newOk o = true) ∧
      (∀ evs s, runTrace o (initState o) evs = some s →
        s.isCallbackError = false ∧ ∀ ev ∈ evs, ∀ r, ev.act ≠ Action.invokeCallback r) ∧
      (∀ s gid, gid ≠ 0 → s.workers.get? (gid - 1) = some WPhase.atCallback →
        step o s ⟨gid, Action.skipCallback⟩ = some (setPhase s gid WPhase.atGate)) := by
  refine ⟨?_, ?_, ?_⟩
  · rintro ⟨h1, h2⟩
    rw [newOk, New, if_neg h1, if_neg h2]
  · intro evs s hrun
    exact runTrace_nil_callback o hcb evs (initState o) s rfl hrun
  · intro s gid hgid hww
    exact step_skipCallback o hcb s gid hgid hww

/-- Concrete nil-callback two-iteration run instantiating C10. -/
theorem nil_callback_safe_witness :
    newOk oC10w = true ∧ sC10w.isCallbackError = false ∧
      step oC10w sC10mid ⟨1, Action.skipCallback⟩ = some (setPhase sC10mid 1 WPhase.atGate) :=
  ⟨(nil_callback_safe oC10w rfl).1 ⟨by decide, by decide⟩,
   ((nil_callback_safe oC10w rfl).2.1 evsC10w sC10w (by decide)).1,
   (nil_callback_safe oC10w rfl).2.2 sC10mid 1 (by decide) (by decide)⟩

end Gorate
